import Mathlib

/-!
# Rural work & tourism itinerary engine — verification development

Shallow embedding of the preference-scored recommendation and multi-day
itinerary scheduler of the `kdt-hackathon-ai-engine` repository, together
with proofs of its specified invariants.

Embedded from the repository sources:
* the scoring routine `score_and_rank_attractions` (API/engine notes),
* the calendar materialization `updateHomeCalendar` (frontend app script),
* the schedule grouping pass of `renderScheduleTable` / `renderMiniTime`
  (frontend app script),
* the farm-mandatory guard of `generateFromSelections` (frontend app script).

The backend service modules (`app/services/simple_scheduling_service.py`
and friends) are not part of the checked-in sources; the itinerary builder,
duration extractor and feedback reviser are therefore modelled from the
specification, as flagged on each such definition.
-/

namespace KdtEngine

/-! ## Data model: scoring -/

/-- A candidate tourist attraction as consumed by the scorer: name, address
and its two keyword tag sequences (already split into lists; the source's
`parse_keywords` comma-splitting is applied upstream). -/
structure CandidateAttraction where
  name : String
  address : String
  travel_style_keywords : List String
  landscape_keywords : List String
deriving DecidableEq, Repr

/-- Modelled from the spec: `keywords_match` is synonym-aware tag matching,
"normalized string equality after whitespace/diacritic normalization".
The normalization routine is not in the checked-in sources, so it is taken
as the identity and the match as plain string equality. -/
def keywords_match (a b : String) : Bool := a == b

/-- Count of USER travel-style tags that match at least one of the
candidate's travel-style tags.  This mirrors the source:
`sum(1 for style in user_travel_styles if any(keywords_match(style, s) for s in attr_styles))`. -/
def matchCount (user_styles attr_styles : List String) : Nat :=
  (user_styles.filter (fun style => attr_styles.any (fun a => keywords_match style a))).length

/-- Whether any user landscape tag matches any candidate landscape tag. -/
def landscapeMatch (user_landscapes attr_landscapes : List String) : Bool :=
  user_landscapes.any (fun l => attr_landscapes.any (fun a => keywords_match l a))

/-- The score the engine assigns to one candidate, mirroring the source:
`score = matches * 2`, plus `1` when the user landscape set is non-empty
and some landscape tag matches. -/
def scoreOf (attr : CandidateAttraction) (styles lands : List String) : Nat :=
  let s := 2 * matchCount styles attr.travel_style_keywords
  if lands.isEmpty then s
  else if landscapeMatch lands attr.landscape_keywords then s + 1 else s

/-- A scored attraction.  `idx` records the original input position (implicit
in the source through the stability of Python's `sorted`); it is carried
explicitly here so the tie-breaking order can be stated. -/
structure ScoredAttraction where
  idx : Nat
  attraction : CandidateAttraction
  score : Nat
deriving DecidableEq, Repr

/-- The scored list in input order, mirroring the source's append loop. -/
def scoreList (attrs : List CandidateAttraction) (styles lands : List String) :
    List ScoredAttraction :=
  attrs.enum.map (fun p => ⟨p.1, p.2, scoreOf p.2 styles lands⟩)

/-- Insert an element into a score-descending list, after every element of
greater-or-equal score (this is exactly where a stable descending sort
places a later-arriving element). -/
def insertDesc (x : ScoredAttraction) : List ScoredAttraction → List ScoredAttraction
  | [] => [x]
  | y :: ys => if y.score < x.score then x :: y :: ys else y :: insertDesc x ys

/-- Stable sort by score descending, processing elements in input order;
observationally equal to the source's `sorted(scored, key=lambda x: x.score, reverse=True)`
(Python's sort is stable, and `reverse=True` preserves the original order of
score ties). -/
def sortDesc (l : List ScoredAttraction) : List ScoredAttraction :=
  l.foldl (fun acc x => insertDesc x acc) []

/-- The scorer: score every candidate, then stable-sort descending by score.
Embeds `score_and_rank_attractions` from the engine notes. -/
def score_and_rank_attractions (attrs : List CandidateAttraction)
    (styles lands : List String) : List ScoredAttraction :=
  sortDesc (scoreList attrs styles lands)

/-- The per-candidate score formula as the C6 claim words it: two times the
number of the CANDIDATE's travel-style tags that match some user tag, plus
the landscape bonus.  Stated from the claim's words, for comparison against
`scoreOf`, which is embedded from the source. -/
def claimScoreOf (attr : CandidateAttraction) (styles lands : List String) : Nat :=
  let s := 2 * (attr.travel_style_keywords.filter
      (fun a => styles.any (fun st => keywords_match st a))).length
  if lands.isEmpty then s
  else if landscapeMatch lands attr.landscape_keywords then s + 1 else s

/-- The strict ranking order the output is claimed to satisfy: higher score
first, score ties in original input order. -/
def RankOrder (a b : ScoredAttraction) : Prop :=
  b.score < a.score ∨ (a.score = b.score ∧ a.idx < b.idx)

/-! ## DurationExtractor -/

/-- Is `pat` a prefix of `cs` (character lists)? -/
def isPrefixChars : List Char → List Char → Bool
  | [], _ => true
  | _ :: _, [] => false
  | p :: ps, c :: cs => p == c && isPrefixChars ps cs

/-- Naive substring search over character lists. -/
def containsChars (pat : List Char) : List Char → Bool
  | [] => isPrefixChars pat []
  | c :: cs => isPrefixChars pat (c :: cs) || containsChars pat cs

/-- Substring test on strings. -/
def hasSub (text pat : String) : Bool := containsChars pat.data text.data

/-- Modelled from the spec: the numeral-word → integer lookup table of the
`DurationExtractor` ("하루"=1, "이틀"=2, "열흘"=10, etc.); the backend module
holding it (`simple_scheduling_service.py`) is not in the checked-in sources. -/
def koreanNumeralTable : List (String × Nat) :=
  [("하루", 1), ("이틀", 2), ("사흘", 3), ("나흘", 4), ("닷새", 5),
   ("엿새", 6), ("이레", 7), ("여드레", 8), ("아흐레", 9), ("열흘", 10)]

/-- Read a leading run of digits; returns the accumulated value and the rest. -/
def readDigits : List Char → Nat → Nat × List Char
  | [], acc => (acc, [])
  | c :: cs, acc =>
    if c.isDigit then readDigits cs (acc * 10 + (c.toNat - 48)) else (acc, c :: cs)

/-- Find the first digit run immediately followed by the day marker '일'. -/
def findDigitDay : List Char → Option Nat
  | [] => none
  | c :: cs =>
    if c.isDigit then
      match readDigits (c :: cs) 0 with
      | (n, rest) =>
        match rest with
        | '일' :: _ => some n
        | _ =>
          -- skip the digit run we just consumed and keep scanning
          findDigitDay cs
    else findDigitDay cs

/-- The duration policy clamp: the itinerary length is bounded to 1..10 by the
farm-stay constraint, so any found value is clamped into that domain. -/
def clampDuration (n : Nat) : Nat := min 10 (max 1 n)

/-- Modelled from the spec: `extract_duration(text) -> Option<int>`, domain
1..10.  Spelled-out numerals are resolved through `koreanNumeralTable`;
digit-based phrases like "10일" through `findDigitDay`; when no duration
phrase is found the result is `none` (absence, not zero); found values are
clamped into 1..10.  The backend module holding the implementation is not in
the checked-in sources. -/
def extract_duration (text : String) : Option Nat :=
  match (koreanNumeralTable.find? (fun p => hasSub text p.1)).map (fun p => p.2) with
  | some n => some (clampDuration n)
  | none =>
    match findDigitDay text.data with
    | some n => some (clampDuration n)
    | none => none

/-! ## Data model: itinerary -/

/-- Schedule entry kind: the source uses the strings "농가" (farm) and
"관광지" (tour). -/
inductive ScheduleType where
  | farm
  | tour
deriving DecidableEq, Repr

/-- One schedule entry of the flat itinerary.  The resolved calendar date is
represented as an absolute day number (start date + day offset). -/
structure ScheduleItem where
  day : Nat
  date : Nat
  schedule_type : ScheduleType
  name : String
  start_time : String
  address : String
deriving DecidableEq, Repr

/-- The single mandatory farm selection of an itinerary request. -/
structure FarmSelection where
  name : String
  address : String
  start_time : String
deriving DecidableEq, Repr

/-- One selected tour attraction of an itinerary request. -/
structure TourSelection where
  name : String
  address : String
  start_time : String
deriving DecidableEq, Repr

/-- Itinerary summary counters. -/
structure Summary where
  farm_days_count : Nat
  tour_days_count : Nat
  region : String
deriving DecidableEq, Repr

/-- A produced itinerary: opaque id, total day count and the flat day-sorted
schedule item sequence, plus the summary. -/
structure Itinerary where
  itinerary_id : String
  total_days : Nat
  itinerary : List ScheduleItem
  summary : Summary
deriving DecidableEq, Repr

/-! ## ItineraryBuilder (modelled from the spec) -/

/-- The farm schedule item for a given day. -/
def farmItem (f : FarmSelection) (start day : Nat) : ScheduleItem :=
  { day := day, date := start + day - 1, schedule_type := .farm,
    name := f.name, start_time := f.start_time, address := f.address }

/-- A tour schedule item for a given day. -/
def tourItem (start day : Nat) (t : TourSelection) : ScheduleItem :=
  { day := day, date := start + day - 1, schedule_type := .tour,
    name := t.name, start_time := t.start_time, address := t.address }

/-- The "free day" marker placed on leftover non-farm days. -/
def freeItem (start day : Nat) : ScheduleItem :=
  { day := day, date := start + day - 1, schedule_type := .tour,
    name := "자유 일정", start_time := "", address := "" }

/-- The contiguous farm block starting at `lo`, `len` days long. -/
def farmBlock (f : FarmSelection) (start lo len : Nat) : List ScheduleItem :=
  (List.range' lo len).map (farmItem f start)

/-- Distribute tour selections over the given (ascending) tour day numbers:
one per day in order; if more items than days remain, the surplus is packed
onto the last day; leftover days get the free-day marker. -/
def distTours (start : Nat) : List Nat → List TourSelection → List ScheduleItem
  | [], _ => []
  | [d], [] => [freeItem start d]
  | [d], t :: ts => (t :: ts).map (tourItem start d)
  | d :: d' :: ds, [] => freeItem start d :: distTours start (d' :: ds) []
  | d :: d' :: ds, t :: ts => tourItem start d t :: distTours start (d' :: ds) ts

/-- Number of non-farm days reserved when tours (or the special event) are
present: day 1 for arrival plus up to two trailing tour days, bounded so that
the farm block keeps at least one day (cf. the specification's worked
example: duration 10 gives a 7-day farm block with tour days 1, 9 and 10). -/
def reservedTourDays (d : Nat) (hasTours : Bool) : Nat :=
  if hasTours then min 3 (d - 1) else 0

/-- Modelled from the spec: the builder's flat, day-sorted schedule item
sequence.  Day 1 is reserved for arrival/tour content when any tour exists;
the farm block occupies one contiguous run of days; remaining tour items are
distributed over the trailing non-farm days with surplus packed onto the
last day and leftovers turned into free-day markers.  (With tours present
and duration 1 the arrival content and the farm share the single day.) -/
def buildItems (f : FarmSelection) (allTours : List TourSelection)
    (d start : Nat) : List ScheduleItem :=
  let reserved := reservedTourDays d (!allTours.isEmpty)
  let farmSize := d - reserved
  match allTours with
  | [] => farmBlock f start 1 farmSize
  | t :: ts =>
    if reserved = 0 then
      (t :: ts).map (tourItem start 1) ++ farmBlock f start 1 farmSize
    else if reserved = 1 then
      (t :: ts).map (tourItem start 1) ++ farmBlock f start 2 farmSize
    else
      tourItem start 1 t :: farmBlock f start 2 farmSize
        ++ distTours start (List.range' (2 + farmSize) (reserved - 1)) ts

/-- Builder error kinds. -/
inductive BuildError where
  | NoFarmSelectedError
  | DurationUnavailableError
deriving DecidableEq, Repr

/-- Modelled from the spec: `generate_schedule` / `build`.  The farm
selection is mandatory (`NoFarmSelectedError` when absent); the special
event, when present, is placed ahead of every scored tour selection; the
requested duration is clamped into the 1..10 domain imposed by the farm-stay
constraint.  The backend module holding the implementation
(`simple_scheduling_service.py`) is not in the checked-in sources. -/
def generate_schedule (farmSel : Option FarmSelection) (tours : List TourSelection)
    (special : Option TourSelection) (duration start : Nat)
    (region iid : String) : Except BuildError Itinerary :=
  match farmSel with
  | none => .error .NoFarmSelectedError
  | some f =>
    let d := clampDuration duration
    let allTours := special.toList ++ tours
    let reserved := reservedTourDays d (!allTours.isEmpty)
    .ok
      { itinerary_id := iid
        total_days := d
        itinerary := buildItems f allTours d start
        summary :=
          { farm_days_count := d - reserved
            tour_days_count := reserved
            region := region } }

/-! ## FeedbackReviser (modelled from the spec) -/

/-- Modelled from the spec: the ordinal day-word table of the feedback parser
("첫째날"=day 1, "둘째날"=day 2, ...); the backend module holding it is not in
the checked-in sources. -/
def dayWordTable : List (String × Nat) :=
  [("첫째날", 1), ("둘째날", 2), ("셋째날", 3), ("넷째날", 4), ("다섯째날", 5),
   ("여섯째날", 6), ("일곱째날", 7), ("여덟째날", 8), ("아홉째날", 9), ("열째날", 10)]

/-- Modelled from the spec: parse a day reference out of the feedback text
via the ordinal day-word table. -/
def parseDayRef (feedback : String) : Option Nat :=
  (dayWordTable.find? (fun p => hasSub feedback p.1)).map (fun p => p.2)

/-- Does some schedule item of the itinerary sit on `day`? -/
def dayExists (it : Itinerary) (day : Nat) : Bool :=
  it.itinerary.any (fun x => x.day == day)

/-- Does a FARM item of the itinerary sit on `day`? -/
def isFarmDay (it : Itinerary) (day : Nat) : Bool :=
  it.itinerary.any (fun x => x.day == day && x.schedule_type == .farm)

/-- Reviser error kind. -/
inductive ReviseError where
  | FeedbackTargetInvalidError
deriving DecidableEq, Repr

/-- Substitute the top-ranked re-scored candidate into one schedule item of
the targeted day, keeping the day and resolved date. -/
def substItem (x : ScheduleItem) (ranked : List ScoredAttraction) : ScheduleItem :=
  match ranked with
  | [] => x
  | top :: _ =>
    { x with name := top.attraction.name, address := top.attraction.address }

/-- Recompute the summary counters from a flat item list. -/
def summarize (items : List ScheduleItem) (total_days : Nat) (region : String) :
    Summary :=
  let farmDays := ((items.filter (fun x => x.schedule_type == .farm)).map
      (fun x => x.day)).dedup.length
  { farm_days_count := farmDays, tour_days_count := total_days - farmDays,
    region := region }

/-- Substitute the top-ranked alternative into the items of the targeted day,
one-by-one, leaving every other day's items untouched. -/
def reviseItems (items : List ScheduleItem) (day : Nat)
    (ranked : List ScoredAttraction) : List ScheduleItem :=
  items.map (fun x => if x.day == day then substItem x ranked else x)

/-- Modelled from the spec: `revise_schedule(itinerary, feedback)`.  Parses a
day reference from the feedback; signals `FeedbackTargetInvalidError` when no
reference resolves, the referenced day does not exist, or the referenced day
is a farm day (the farm block is immutable by feedback).  Otherwise the
remaining unused candidates are re-scored and the top-ranked alternative is
substituted into that day's items only; the itinerary id is preserved and the
summary recomputed.  The backend module holding the implementation is not in
the checked-in sources. -/
def revise_schedule (it : Itinerary) (feedback : String)
    (candidates : List CandidateAttraction) (styles lands : List String) :
    Except ReviseError Itinerary :=
  match parseDayRef feedback with
  | none => .error .FeedbackTargetInvalidError
  | some day =>
    if dayExists it day = false then .error .FeedbackTargetInvalidError
    else if isFarmDay it day = true then .error .FeedbackTargetInvalidError
    else
      let items := reviseItems it.itinerary day
        (score_and_rank_attractions candidates styles lands)
      .ok
        { itinerary_id := it.itinerary_id
          total_days := it.total_days
          itinerary := items
          summary := summarize items it.total_days it.summary.region }

/-! ## CalendarMaterializer (embedded from `updateHomeCalendar`) -/

/-- One calendar event as built by `updateHomeCalendar`:
`{ activity: item.name, date: item.date + ' ' + item.start_time, type: item.schedule_type, day: item.day }`. -/
structure CalEvent where
  activity : String
  date : String
  eventType : String
  day : Nat
deriving DecidableEq, Repr

/-- A schedule item as the frontend script consumes it (untyped JS object;
only the fields read by `updateHomeCalendar` and the grouping pass are
modelled, with `schedule_type` kept as its raw string). -/
structure JsItem where
  day : Nat
  date : String
  schedule_type : String
  name : String
  start_time : String
deriving DecidableEq, Repr

/-- The date-keyed calendar store `STATE.calendar`: the nested JS object
`calendar[yearMonth][day] = [events]` is modelled as an association list
keyed by the `(yearMonth, day)` pair. -/
abbrev Calendar := List ((String × String) × List CalEvent)

/-- The event list under one `(yearMonth, day)` key (`[]` when absent),
mirroring `STATE.calendar[yearMonth][day] || []`. -/
def getDay : Calendar → String × String → List CalEvent
  | [], _ => []
  | (k, evs) :: rest, key => if k == key then evs else getDay rest key

/-- Append one event under a `(yearMonth, day)` key, creating the entry when
absent, mirroring `STATE.calendar[yearMonth][day].push(event)`. -/
def pushDay : Calendar → String × String → CalEvent → Calendar
  | [], key, e => [(key, [e])]
  | (k, evs) :: rest, key, e =>
    if k == key then (k, evs ++ [e]) :: rest else (k, evs) :: pushDay rest key e

/-- The calendar key derivation of `updateHomeCalendar`:
`yearMonth = dateStr.slice(0, 7)`, `day = dateStr.slice(8, 10)`. -/
def calKey (dateStr : String) : String × String :=
  (dateStr.take 7, (dateStr.drop 8).take 2)

/-- The duplicate test of `updateHomeCalendar`: an event with the same
`activity` and `type` already sits under the day key. -/
def eventExists (evs : List CalEvent) (item : JsItem) : Bool :=
  evs.any (fun e => e.activity == item.name && e.eventType == item.schedule_type)

/-- The event object pushed by `updateHomeCalendar`. -/
def eventOf (item : JsItem) : CalEvent :=
  { activity := item.name
    date := item.date ++ (if item.start_time ≠ "" then " " ++ item.start_time else "")
    eventType := item.schedule_type
    day := item.day }

/-- One loop iteration of `updateHomeCalendar`: skip items without date or
name, derive the day key, and push the event unless a duplicate
`(activity, type)` entry already exists under that key. -/
def addCalendarItem (cal : Calendar) (item : JsItem) : Calendar :=
  if item.date ≠ "" ∧ item.name ≠ "" then
    let key := calKey item.date
    let evs := getDay cal key
    if eventExists evs item then cal
    else pushDay cal key (eventOf item)
  else cal

/-- Embedded from `updateHomeCalendar` (frontend app script): materialize the
flat itinerary item list into the date-keyed calendar. -/
def updateHomeCalendar (cal : Calendar) (items : List JsItem) : Calendar :=
  items.foldl addCalendarItem cal

/-! ## Grouped-schedule view (embedded from `renderScheduleTable` /
`renderMiniTime`) -/

/-- One group of the grouped-schedule view: kind string ("농가" or "관광지"),
day range and the member items. -/
structure SGroup where
  gtype : String
  startDay : Nat
  endDay : Nat
  items : List JsItem
deriving DecidableEq, Repr

/-- One iteration of the grouping loop shared by `renderScheduleTable` and
`renderMiniTime`: a farm ("농가") item extends a current farm group, a
non-farm item joins the current group only when it is a tour ("관광지")
group with the same `startDay`; otherwise the current group is pushed and a
fresh group started. -/
def groupStep (st : List SGroup × Option SGroup) (item : JsItem) :
    List SGroup × Option SGroup :=
  let (gs, cur) := st
  if item.schedule_type == "농가" then
    match cur with
    | some g =>
      if g.gtype == "농가" then
        (gs, some { g with endDay := item.day, items := g.items ++ [item] })
      else
        (gs ++ [g], some ⟨"농가", item.day, item.day, [item]⟩)
    | none => (gs, some ⟨"농가", item.day, item.day, [item]⟩)
  else
    match cur with
    | some g =>
      if g.gtype == "관광지" && g.startDay == item.day then
        (gs, some { g with items := g.items ++ [item] })
      else
        (gs ++ [g], some ⟨"관광지", item.day, item.day, [item]⟩)
    | none => (gs, some ⟨"관광지", item.day, item.day, [item]⟩)

/-- Embedded from the grouping pass of `renderScheduleTable` /
`renderMiniTime`: fold the flat itinerary into the grouped-schedule view,
appending the trailing current group at the end. -/
def groupedScheduleOf (its : List JsItem) : List SGroup :=
  let st := its.foldl groupStep ([], none)
  match st.2 with
  | some g => st.1 ++ [g]
  | none => st.1

/-! ## Frontend request guard (embedded from `generateFromSelections`) -/

/-- Embedded from `generateFromSelections` (frontend app script): the request
sent to the engine, or `none` when no farm card is selected — the handler
refuses to call the engine (`if (!STATE.selections.farm) { alert(...); return; }`).
A request structurally carries exactly one farm selection and a list of tour
selections. -/
def generateFromSelections_request (farmSel : Option FarmSelection)
    (tours : List TourSelection) : Option (FarmSelection × List TourSelection) :=
  match farmSel with
  | none => none
  | some f => some (f, tours)

/-- A `(activity, type)` entry for the given item already sits under its day
key — the state `updateHomeCalendar`'s duplicate guard tests for. -/
def calMemb (cal : Calendar) (item : JsItem) : Prop :=
  eventExists (getDay cal (calKey item.date)) item = true

/-- All items accumulated in a grouping state, finished groups first, then
the in-progress group. -/
def flattenSt (st : List SGroup × Option SGroup) : List JsItem :=
  (st.1.map (fun g => g.items)).flatten ++
    (match st.2 with
      | some g => g.items
      | none => [])

/-! ## Concrete demonstration inputs -/

/-- A demo candidate matching the demo profile on one style tag and one
landscape tag. -/
def demoAttraction1 : CandidateAttraction :=
  ⟨"벽골제", "전북 김제시", ["체험형"], ["산"]⟩

/-- A second demo candidate with no matching tags. -/
def demoAttraction2 : CandidateAttraction :=
  ⟨"김제지평선축제", "전북 김제시 부량면", ["힐링·여유"], []⟩

/-- A candidate whose travel-style tag list repeats one tag — the input
separating the two readings of the score formula. -/
def dupAttraction : CandidateAttraction :=
  ⟨"대둔산", "전북 완주군", ["체험형", "체험형"], []⟩

/-- The demo farm selection of the specification's worked example. -/
def demoFarm : FarmSelection := ⟨"김제 과수농장", "전북 김제시 금구면", "08:00"⟩

/-- The demo tour selection of the specification's worked example. -/
def demoTour : TourSelection := ⟨"벽골제", "전북 김제시", "15:00"⟩

/-- The demo special-event tour of the specification's worked example. -/
def demoSpecial : TourSelection := ⟨"김제지평선축제", "전북 김제시 부량면", "14:00"⟩

/-- A frontend-shaped tour item on day 1. -/
def demoJsTour : JsItem := ⟨1, "2025-10-01", "관광지", "벽골제", "15:00"⟩

/-- A frontend-shaped farm item on day 2. -/
def demoJsFarm : JsItem := ⟨2, "2025-10-02", "농가", "김제 과수농장", "08:00"⟩

/-- A frontend-shaped farm item on day 3. -/
def demoJsFarm2 : JsItem := ⟨3, "2025-10-03", "농가", "김제 과수농장", "08:00"⟩

/-- A small concrete itinerary: day 1 a tour day, day 2 a farm day. -/
def demoItinerary : Itinerary :=
  { itinerary_id := "sched-demo"
    total_days := 2
    itinerary := [tourItem 1 1 demoTour, farmItem demoFarm 1 2]
    summary := ⟨1, 1, "김제시"⟩ }

/-! ## Lemmas: scorer -/

theorem insertDesc_perm (x : ScoredAttraction) (l : List ScoredAttraction) :
    List.Perm (insertDesc x l) (x :: l) := by
  induction l with
  | nil => simp [insertDesc]
  | cons y ys ih =>
    simp only [insertDesc]
    by_cases h : y.score < x.score
    · simp [h]
    · simp only [h, if_neg, if_false]
      exact (ih.cons y).trans (List.Perm.swap x y ys)

theorem mem_insertDesc {z x : ScoredAttraction} {l : List ScoredAttraction} :
    z ∈ insertDesc x l ↔ z = x ∨ z ∈ l := by
  rw [(insertDesc_perm x l).mem_iff, List.mem_cons]

theorem insertDesc_pairwise {x : ScoredAttraction} {l : List ScoredAttraction}
    (hidx : ∀ y ∈ l, y.idx < x.idx) (hp : List.Pairwise RankOrder l) :
    List.Pairwise RankOrder (insertDesc x l) := by
  induction l with
  | nil => simp [insertDesc]
  | cons y ys ih =>
    rw [List.pairwise_cons] at hp
    simp only [insertDesc]
    by_cases h : y.score < x.score
    · rw [if_pos h, List.pairwise_cons, List.pairwise_cons]
      refine ⟨?_, hp.1, hp.2⟩
      intro z hz
      rcases List.mem_cons.mp hz with rfl | hz
      · exact Or.inl h
      · rcases hp.1 z hz with h2 | h2
        · exact Or.inl (h2.trans h)
        · exact Or.inl (h2.1 ▸ h)
    · rw [if_neg h, List.pairwise_cons]
      constructor
      · intro z hz
        rcases mem_insertDesc.mp hz with rfl | hz
        · rcases Nat.lt_or_ge z.score y.score with h2 | h2
          · exact Or.inl h2
          · exact Or.inr ⟨Nat.le_antisymm h2 (Nat.le_of_not_lt h),
              hidx y (List.mem_cons_self y ys)⟩
        · exact hp.1 z hz
      · exact ih (fun z hz => hidx z (List.mem_cons_of_mem y hz)) hp.2

theorem sortAux_perm (l : List ScoredAttraction) :
    ∀ acc, List.Perm (l.foldl (fun acc x => insertDesc x acc) acc) (acc ++ l) := by
  induction l with
  | nil => intro acc; simp
  | cons x xs ih =>
    intro acc
    simp only [List.foldl_cons]
    refine (ih (insertDesc x acc)).trans ?_
    refine (List.Perm.append_right xs (insertDesc_perm x acc)).trans ?_
    simpa using List.perm_middle.symm

theorem sortAux_pairwise (l : List ScoredAttraction) :
    ∀ acc, List.Pairwise RankOrder acc →
      (∀ a ∈ acc, ∀ b ∈ l, a.idx < b.idx) →
      List.Pairwise (fun a b => a.idx < b.idx) l →
      List.Pairwise RankOrder (l.foldl (fun acc x => insertDesc x acc) acc) := by
  induction l with
  | nil => intro acc hacc _ _; simpa using hacc
  | cons x xs ih =>
    intro acc hacc hcross hl
    rw [List.pairwise_cons] at hl
    simp only [List.foldl_cons]
    refine ih (insertDesc x acc) ?_ ?_ hl.2
    · exact insertDesc_pairwise
        (fun y hy => hcross y hy x (List.mem_cons_self x xs)) hacc
    · intro a ha b hb
      rcases mem_insertDesc.mp ha with rfl | ha
      · exact hl.1 b hb
      · exact hcross a ha b (List.mem_cons_of_mem x hb)

theorem enumFrom_fst_lt {α : Type} :
    ∀ (l : List α) (n : Nat) (p : Nat × α), p ∈ List.enumFrom n l → n ≤ p.1 := by
  intro l
  induction l with
  | nil => intro n p hp; simp [List.enumFrom] at hp
  | cons x xs ih =>
    intro n p hp
    rcases List.mem_cons.mp hp with rfl | hp
    · exact Nat.le_refl n
    · exact Nat.le_of_succ_le (ih (n + 1) p hp)

theorem enumFrom_pairwise {α : Type} :
    ∀ (l : List α) (n : Nat),
      List.Pairwise (fun p q => p.1 < q.1) (List.enumFrom n l) := by
  intro l
  induction l with
  | nil => intro n; simp [List.enumFrom]
  | cons x xs ih =>
    intro n
    rw [List.enumFrom, List.pairwise_cons]
    exact ⟨fun p hp => Nat.lt_of_succ_le (enumFrom_fst_lt xs (n + 1) p hp), ih (n + 1)⟩

theorem scoreList_idx_pairwise (attrs : List CandidateAttraction)
    (styles lands : List String) :
    List.Pairwise (fun a b => a.idx < b.idx) (scoreList attrs styles lands) := by
  refine List.Pairwise.map _ ?_ (enumFrom_pairwise attrs 0)
  intro p q h
  exact h

theorem mem_scoreList_score {s : ScoredAttraction}
    {attrs : List CandidateAttraction} {styles lands : List String}
    (h : s ∈ scoreList attrs styles lands) :
    s.score = scoreOf s.attraction styles lands := by
  rcases List.mem_map.mp h with ⟨p, _, rfl⟩
  rfl

theorem scoreOf_formula (attr : CandidateAttraction) (styles lands : List String) :
    scoreOf attr styles lands =
      2 * matchCount styles attr.travel_style_keywords +
        (if lands.isEmpty = false ∧ landscapeMatch lands attr.landscape_keywords = true
          then 1 else 0) := by
  unfold scoreOf
  by_cases h1 : lands.isEmpty
  · simp [h1]
  · by_cases h2 : landscapeMatch lands attr.landscape_keywords
    · simp [h1, h2]
    · simp [h1, h2]

/-! ## Claim C7 -/

/-- C7: `score_and_rank` is deterministic — equal inputs give an identical
ordered sequence — and its output is totally ordered by score descending
with ties broken by the candidates' original input positions (it is a
permutation of the scored input list, pairwise sorted by `RankOrder`). -/
theorem score_and_rank_deterministic_total_order_C7
    (attrs attrs' : List CandidateAttraction)
    (styles styles' lands lands' : List String)
    (h1 : attrs = attrs') (h2 : styles = styles') (h3 : lands = lands') :
    score_and_rank_attractions attrs styles lands =
        score_and_rank_attractions attrs' styles' lands'
    ∧ List.Pairwise RankOrder (score_and_rank_attractions attrs styles lands)
    ∧ List.Perm (score_and_rank_attractions attrs styles lands)
        (scoreList attrs styles lands) := by
  subst h1; subst h2; subst h3
  refine ⟨rfl, ?_, ?_⟩
  · exact sortAux_pairwise (scoreList attrs styles lands) [] List.Pairwise.nil
      (by intro a ha; simp at ha) (scoreList_idx_pairwise attrs styles lands)
  · simpa [score_and_rank_attractions, sortDesc] using
      sortAux_perm (scoreList attrs styles lands) []

/-- Witness for C7 at a concrete input. -/
theorem score_and_rank_deterministic_total_order_C7_witness :
    List.Pairwise RankOrder
      (score_and_rank_attractions [demoAttraction1, demoAttraction2]
        ["체험형"] ["산"]) :=
  (score_and_rank_deterministic_total_order_C7
    [demoAttraction1, demoAttraction2] [demoAttraction1, demoAttraction2]
    ["체험형"] ["체험형"] ["산"] ["산"] rfl rfl rfl).2.1

/-! ## Claim C6 -/

/-- C6 counterexample: the claim reads the score as two times the number of
the CANDIDATE's travel-style tags that match the user's tags
(`claimScoreOf`); on a candidate whose tag list repeats a matching tag the
engine assigns 2 (it counts matching USER tags), while the claim's formula
gives 4. -/
theorem score_formula_counterexample_C6 :
    score_and_rank_attractions [dupAttraction] ["체험형"] [] =
        [⟨0, dupAttraction, 2⟩]
    ∧ claimScoreOf dupAttraction ["체험형"] [] = 4
    ∧ score_and_rank_attractions [dupAttraction] ["체험형"] [] ≠
        [⟨0, dupAttraction, claimScoreOf dupAttraction ["체험형"] []⟩] := by
  refine ⟨by decide, by decide, by decide⟩

/-- C6 (amended): every ranked result carries the score
2 × (number of USER travel-style tags matching at least one of the
candidate's travel-style tags) + 1 if any landscape tag of the candidate
matches a user landscape tag (and the user landscape set is non-empty),
else + 0. -/
theorem score_formula_amended_C6 (attrs : List CandidateAttraction)
    (styles lands : List String) (s : ScoredAttraction)
    (h : s ∈ score_and_rank_attractions attrs styles lands) :
    s.score = 2 * matchCount styles s.attraction.travel_style_keywords +
      (if lands.isEmpty = false ∧
          landscapeMatch lands s.attraction.landscape_keywords = true
        then 1 else 0) := by
  have h' : s ∈ (scoreList attrs styles lands).foldl
      (fun acc x => insertDesc x acc) [] := h
  have hmem : s ∈ scoreList attrs styles lands := by
    have hp := (sortAux_perm (scoreList attrs styles lands) []).mem_iff.mp h'
    simpa using hp
  rw [mem_scoreList_score hmem, scoreOf_formula]

/-- Witness for the amended C6 at a concrete input. -/
theorem score_formula_amended_C6_witness :
    (⟨0, demoAttraction1, 3⟩ : ScoredAttraction).score =
      2 * matchCount ["체험형"]
          (⟨0, demoAttraction1, 3⟩ : ScoredAttraction).attraction.travel_style_keywords +
        (if (["산"] : List String).isEmpty = false ∧
            landscapeMatch ["산"]
              (⟨0, demoAttraction1, 3⟩ : ScoredAttraction).attraction.landscape_keywords = true
          then 1 else 0) :=
  score_formula_amended_C6 [demoAttraction1] ["체험형"] ["산"]
    ⟨0, demoAttraction1, 3⟩ (by decide)

/-! ## Claim C8 -/

/-- C8: `extract_duration` returns an absence signal (`none`, never zero)
when no duration phrase is found, resolves spelled-out Korean numerals
through the lookup table ("열흘" yields 10), clamps found values above 10 to
10 instead of failing, and its result is always either absent or an integer
in 1..10. -/
theorem extract_duration_C8 :
    (∀ text, extract_duration text = none ∨
      ∃ n, extract_duration text = some n ∧ 1 ≤ n ∧ n ≤ 10)
    ∧ extract_duration "열흘" = some 10
    ∧ extract_duration "그냥 놀러 갈래" = none
    ∧ extract_duration "15일" = some 10 := by
  refine ⟨?_, by decide, by decide, by decide⟩
  intro text
  unfold extract_duration
  cases hfind :
      (koreanNumeralTable.find? (fun p => hasSub text p.1)).map (fun p => p.2) with
  | some n =>
    right
    exact ⟨clampDuration n, rfl, by unfold clampDuration; omega⟩
  | none =>
    cases hdig : findDigitDay text.data with
    | some n =>
      right
      exact ⟨clampDuration n, rfl, by unfold clampDuration; omega⟩
    | none => left; rfl

/-! ## Lemmas: builder -/

theorem farmBlock_days (f : FarmSelection) (start lo len : Nat) :
    (farmBlock f start lo len).map (fun x => x.day) = List.range' lo len := by
  unfold farmBlock
  rw [List.map_map]
  exact List.map_id _

theorem mem_tourMap_days {start dd d' : Nat} {t : TourSelection}
    {ts : List TourSelection} :
    d' ∈ ((t :: ts).map (tourItem start dd)).map (fun x => x.day) ↔ d' = dd := by
  rw [List.map_map]
  constructor
  · intro h
    rcases List.mem_map.mp h with ⟨a, _, rfl⟩
    rfl
  · rintro rfl
    exact List.mem_map.mpr ⟨t, List.mem_cons_self t ts, rfl⟩

theorem distTours_days (start : Nat) :
    ∀ (days : List Nat) (items : List TourSelection) (d' : Nat),
      d' ∈ (distTours start days items).map (fun x => x.day) ↔ d' ∈ days := by
  intro days
  induction days with
  | nil => intro items d'; simp [distTours]
  | cons d rest ih =>
    intro items d'
    cases rest with
    | nil =>
      cases items with
      | nil => simp [distTours, freeItem]
      | cons t ts =>
        show d' ∈ ((t :: ts).map (tourItem start d)).map (fun x => x.day) ↔ _
        rw [mem_tourMap_days]
        simp
    | cons d2 ds =>
      cases items with
      | nil =>
        show d' ∈ (freeItem start d :: distTours start (d2 :: ds) []).map
            (fun x => x.day) ↔ _
        rw [List.map_cons, List.mem_cons, ih []]
        simp [freeItem]
      | cons t ts =>
        show d' ∈ (tourItem start d t :: distTours start (d2 :: ds) ts).map
            (fun x => x.day) ↔ _
        rw [List.map_cons, List.mem_cons, ih ts]
        simp [tourItem]

theorem distTours_mem_type (start : Nat) :
    ∀ (days : List Nat) (items : List TourSelection) (x : ScheduleItem),
      x ∈ distTours start days items → x.schedule_type = ScheduleType.tour := by
  intro days
  induction days with
  | nil => intro items x hx; simp [distTours] at hx
  | cons d rest ih =>
    intro items x hx
    cases rest with
    | nil =>
      cases items with
      | nil =>
        simp only [distTours, List.mem_singleton] at hx
        subst hx; rfl
      | cons t ts =>
        rcases List.mem_map.mp hx with ⟨a, _, rfl⟩
        rfl
    | cons d2 ds =>
      cases items with
      | nil =>
        rcases List.mem_cons.mp hx with rfl | hx
        · rfl
        · exact ih [] x hx
      | cons t ts =>
        rcases List.mem_cons.mp hx with rfl | hx
        · rfl
        · exact ih ts x hx

theorem mem_farmBlock {f : FarmSelection} {start lo len : Nat} {x : ScheduleItem}
    (hx : x ∈ farmBlock f start lo len) :
    x.schedule_type = ScheduleType.farm ∧ x.name = f.name ∧ x.address = f.address := by
  rcases List.mem_map.mp hx with ⟨d, _, rfl⟩
  exact ⟨rfl, rfl, rfl⟩

theorem reservedTourDays_false (d : Nat) : reservedTourDays d false = 0 := rfl

theorem reservedTourDays_true (d : Nat) : reservedTourDays d true = min 3 (d - 1) :=
  rfl

theorem buildItems_days (f : FarmSelection) (allTours : List TourSelection)
    (d start : Nat) (hd : 1 ≤ d) (day : Nat) :
    day ∈ (buildItems f allTours d start).map (fun x => x.day) ↔
      1 ≤ day ∧ day ≤ d := by
  cases allTours with
  | nil =>
    simp only [buildItems, List.isEmpty_nil, Bool.not_true, reservedTourDays_false]
    rw [farmBlock_days, List.mem_range'_1]
    omega
  | cons t ts =>
    simp only [buildItems, List.isEmpty_cons, Bool.not_false, reservedTourDays_true]
    split
    · next hr0 =>
      rw [List.map_append, List.mem_append, mem_tourMap_days, farmBlock_days,
        List.mem_range'_1]
      omega
    · next hr0 =>
      split
      · next hr1 =>
        rw [List.map_append, List.mem_append, mem_tourMap_days, farmBlock_days,
          List.mem_range'_1]
        omega
      · next hr1 =>
        simp only [List.map_cons, List.map_append, List.mem_cons, List.mem_append]
        rw [farmBlock_days, List.mem_range'_1, distTours_days, List.mem_range'_1]
        simp only [tourItem]
        omega

theorem farmBlock_filter_farm (f : FarmSelection) (start lo len : Nat) :
    (farmBlock f start lo len).filter
        (fun x => x.schedule_type == ScheduleType.farm) =
      farmBlock f start lo len := by
  rw [List.filter_eq_self]
  intro a ha
  rcases mem_farmBlock ha with ⟨h1, _, _⟩
  simp [h1]

theorem mem_tourMap_type {start dd : Nat} {l : List TourSelection}
    {x : ScheduleItem} (hx : x ∈ l.map (tourItem start dd)) :
    x.schedule_type = ScheduleType.tour := by
  rcases List.mem_map.mp hx with ⟨a, _, rfl⟩
  rfl

theorem tourMap_filter_farm {start dd : Nat} (l : List TourSelection) :
    (l.map (tourItem start dd)).filter
        (fun x => x.schedule_type == ScheduleType.farm) = [] := by
  rw [List.filter_eq_nil_iff]
  intro a ha
  simp [mem_tourMap_type ha]

theorem distTours_filter_farm (start : Nat) (days : List Nat)
    (items : List TourSelection) :
    (distTours start days items).filter
        (fun x => x.schedule_type == ScheduleType.farm) = [] := by
  rw [List.filter_eq_nil_iff]
  intro a ha
  simp [distTours_mem_type start days items a ha]

theorem buildItems_farm_days (f : FarmSelection) (allTours : List TourSelection)
    (d start : Nat) (hd : 1 ≤ d) :
    ∃ lo len, 1 ≤ len ∧
      ((buildItems f allTours d start).filter
          (fun x => x.schedule_type == ScheduleType.farm)).map (fun x => x.day) =
        List.range' lo len := by
  cases allTours with
  | nil =>
    refine ⟨1, d, hd, ?_⟩
    simp only [buildItems, List.isEmpty_nil, Bool.not_true, reservedTourDays_false]
    rw [farmBlock_filter_farm, farmBlock_days]
    simp
  | cons t ts =>
    simp only [buildItems, List.isEmpty_cons, Bool.not_false, reservedTourDays_true]
    split
    · next hr0 =>
      refine ⟨1, d - min 3 (d - 1), by omega, ?_⟩
      rw [List.filter_append, tourMap_filter_farm, farmBlock_filter_farm,
        List.nil_append, farmBlock_days]
    · next hr0 =>
      split
      · next hr1 =>
        refine ⟨2, d - min 3 (d - 1), by omega, ?_⟩
        rw [List.filter_append, tourMap_filter_farm, farmBlock_filter_farm,
          List.nil_append, farmBlock_days]
      · next hr1 =>
        refine ⟨2, d - min 3 (d - 1), by omega, ?_⟩
        show List.map (fun x => x.day)
            (List.filter (fun x => x.schedule_type == ScheduleType.farm)
              (farmBlock f start 2 (d - min 3 (d - 1)) ++
                distTours start
                  (List.range' (2 + (d - min 3 (d - 1))) (min 3 (d - 1) - 1)) ts)) =
          List.range' 2 (d - min 3 (d - 1))
        rw [List.filter_append, farmBlock_filter_farm, distTours_filter_farm,
          List.append_nil]
        exact farmBlock_days f start 2 (d - min 3 (d - 1))

theorem buildItems_farm_fields (f : FarmSelection) (allTours : List TourSelection)
    (d start : Nat) :
    ∀ x ∈ buildItems f allTours d start, x.schedule_type = ScheduleType.farm →
      x.name = f.name ∧ x.address = f.address := by
  intro x hx hfarm
  cases allTours with
  | nil =>
    simp only [buildItems, List.isEmpty_nil, Bool.not_true,
      reservedTourDays_false] at hx
    exact (mem_farmBlock hx).2
  | cons t ts =>
    simp only [buildItems, List.isEmpty_cons, Bool.not_false,
      reservedTourDays_true] at hx
    split at hx
    · rcases List.mem_append.mp hx with h | h
      · rw [mem_tourMap_type h] at hfarm; cases hfarm
      · exact (mem_farmBlock h).2
    · split at hx
      · rcases List.mem_append.mp hx with h | h
        · rw [mem_tourMap_type h] at hfarm; cases hfarm
        · exact (mem_farmBlock h).2
      · rcases List.mem_cons.mp hx with rfl | h
        · cases hfarm
        · rcases List.mem_append.mp h with h2 | h2
          · exact (mem_farmBlock h2).2
          · rw [distTours_mem_type _ _ _ _ h2] at hfarm; cases hfarm

/-! ## Claim C1 -/

/-- C1: every itinerary produced by the builder has `total_days` between 1
and 10 inclusive, and the day indices of its ScheduleItem sequence are
exactly the contiguous set 1..total_days — every day in range carries at
least one item, and no item lies outside the range. -/
theorem build_day_contiguity_C1 (farm : FarmSelection) (tours : List TourSelection)
    (special : Option TourSelection) (duration start : Nat) (region iid : String)
    (it : Itinerary)
    (h : generate_schedule (some farm) tours special duration start region iid =
      Except.ok it) :
    1 ≤ it.total_days ∧ it.total_days ≤ 10 ∧
      ∀ day, day ∈ it.itinerary.map (fun x => x.day) ↔
        1 ≤ day ∧ day ≤ it.total_days := by
  simp only [generate_schedule, Except.ok.injEq] at h
  subst h
  refine ⟨?_, ?_, fun day => ?_⟩
  · show 1 ≤ clampDuration duration
    unfold clampDuration; omega
  · show clampDuration duration ≤ 10
    unfold clampDuration; omega
  · show day ∈ (buildItems farm (special.toList ++ tours)
        (clampDuration duration) start).map (fun x => x.day) ↔
      1 ≤ day ∧ day ≤ clampDuration duration
    exact buildItems_days farm _ (clampDuration duration) start
      (by unfold clampDuration; omega) day

/-- Witness for C1 at the specification's worked example. -/
theorem build_day_contiguity_C1_witness :
    ∃ it, generate_schedule (some demoFarm) [demoTour] (some demoSpecial)
        10 1 "김제시" "sched-1" = Except.ok it ∧
      (1 ≤ it.total_days ∧ it.total_days ≤ 10 ∧
        ∀ day, day ∈ it.itinerary.map (fun x => x.day) ↔
          1 ≤ day ∧ day ≤ it.total_days) :=
  ⟨_, rfl, build_day_contiguity_C1 demoFarm [demoTour] (some demoSpecial)
    10 1 "김제시" "sched-1" _ rfl⟩

/-! ## Claim C2 -/

/-- C2: in every produced itinerary the farm-type ScheduleItems occupy
exactly one contiguous, non-empty run of day indices (their day list is
literally a `List.range'`), and all of them carry the selected farm's name
and address. -/
theorem build_single_farm_block_C2 (farm : FarmSelection)
    (tours : List TourSelection) (special : Option TourSelection)
    (duration start : Nat) (region iid : String) (it : Itinerary)
    (h : generate_schedule (some farm) tours special duration start region iid =
      Except.ok it) :
    (∃ lo len, 1 ≤ len ∧
      ((it.itinerary.filter (fun x => x.schedule_type == ScheduleType.farm)).map
        (fun x => x.day)) = List.range' lo len) ∧
    ∀ x ∈ it.itinerary, x.schedule_type = ScheduleType.farm →
      x.name = farm.name ∧ x.address = farm.address := by
  simp only [generate_schedule, Except.ok.injEq] at h
  subst h
  constructor
  · exact buildItems_farm_days farm _ (clampDuration duration) start
      (by unfold clampDuration; omega)
  · exact buildItems_farm_fields farm _ (clampDuration duration) start

/-- Witness for C2 at the specification's worked example. -/
theorem build_single_farm_block_C2_witness :
    ∃ it, generate_schedule (some demoFarm) [demoTour] (some demoSpecial)
        10 1 "김제시" "sched-2" = Except.ok it ∧
      ((∃ lo len, 1 ≤ len ∧
        ((it.itinerary.filter (fun x => x.schedule_type == ScheduleType.farm)).map
          (fun x => x.day)) = List.range' lo len) ∧
      ∀ x ∈ it.itinerary, x.schedule_type = ScheduleType.farm →
        x.name = demoFarm.name ∧ x.address = demoFarm.address) :=
  ⟨_, rfl, build_single_farm_block_C2 demoFarm [demoTour] (some demoSpecial)
    10 1 "김제시" "sched-2" _ rfl⟩

/-! ## Claim C9 -/

/-- C9: itinerary construction requires exactly one farm selection — a
request structurally carries one optional FarmSelection and a list of
TourSelections; when the farm is absent the builder signals
`NoFarmSelectedError` (and the frontend guard refuses to send the request
at all), while with a farm present an itinerary is always produced. -/
theorem build_requires_farm_C9 :
    (∀ (tours : List TourSelection) (special : Option TourSelection)
        (duration start : Nat) (region iid : String),
      generate_schedule none tours special duration start region iid =
        Except.error BuildError.NoFarmSelectedError)
    ∧ (∀ (f : FarmSelection) (tours : List TourSelection)
        (special : Option TourSelection) (duration start : Nat)
        (region iid : String), ∃ it,
      generate_schedule (some f) tours special duration start region iid =
        Except.ok it)
    ∧ (∀ tours, generateFromSelections_request none tours = none)
    ∧ (∀ f tours, generateFromSelections_request (some f) tours = some (f, tours)) := by
  refine ⟨fun _ _ _ _ _ _ => rfl, ?_, fun _ => rfl, fun _ _ => rfl⟩
  intro f tours special duration start region iid
  exact ⟨_, rfl⟩

/-! ## Lemmas: reviser -/

theorem substItem_day (x : ScheduleItem) (ranked : List ScoredAttraction) :
    (substItem x ranked).day = x.day := by
  cases ranked <;> rfl

theorem substItem_type (x : ScheduleItem) (ranked : List ScoredAttraction) :
    (substItem x ranked).schedule_type = x.schedule_type := by
  cases ranked <;> rfl

theorem reviseItems_filter_other {day d' : Nat} (hne : d' ≠ day)
    (ranked : List ScoredAttraction) (l : List ScheduleItem) :
    (reviseItems l day ranked).filter (fun x => x.day == d') =
      l.filter (fun x => x.day == d') := by
  induction l with
  | nil => rfl
  | cons x xs ih =>
    simp only [reviseItems, List.map_cons, List.filter_cons] at ih ⊢
    by_cases hx : (x.day == day) = true
    · have hxd : x.day = day := by simpa using hx
      rw [if_pos hx]
      have hfs : ((substItem x ranked).day == d') = false := by
        rw [substItem_day, hxd]
        simp [Ne.symm hne]
      have hfx : (x.day == d') = false := by
        rw [hxd]
        simp [Ne.symm hne]
      rw [if_neg (by simp [hfs]), if_neg (by simp [hfx])]
      exact ih
    · rw [if_neg hx]
      by_cases hd : (x.day == d') = true
      · rw [if_pos hd, if_pos hd, ih]
      · rw [if_neg hd, if_neg hd, ih]

theorem reviseItems_filter_farm {day : Nat} (ranked : List ScoredAttraction)
    (l : List ScheduleItem)
    (hsafe : ∀ x ∈ l, ¬(x.day = day ∧ x.schedule_type = ScheduleType.farm)) :
    (reviseItems l day ranked).filter
        (fun x => x.schedule_type == ScheduleType.farm) =
      l.filter (fun x => x.schedule_type == ScheduleType.farm) := by
  induction l with
  | nil => rfl
  | cons x xs ih =>
    have ih' := ih (fun y hy => hsafe y (List.mem_cons_of_mem x hy))
    simp only [reviseItems, List.map_cons, List.filter_cons] at ih' ⊢
    by_cases hx : (x.day == day) = true
    · have hxd : x.day = day := by simpa using hx
      have hnf : x.schedule_type ≠ ScheduleType.farm :=
        fun hf => hsafe x (List.mem_cons_self x xs) ⟨hxd, hf⟩
      rw [if_pos hx]
      have hfs : ((substItem x ranked).schedule_type == ScheduleType.farm) = false := by
        rw [substItem_type]
        cases hst : x.schedule_type
        · exact absurd hst hnf
        · rfl
      have hfx : (x.schedule_type == ScheduleType.farm) = false := by
        cases hst : x.schedule_type
        · exact absurd hst hnf
        · rfl
      rw [if_neg (by simp [hfs]), if_neg (by simp [hfx])]
      exact ih'
    · rw [if_neg hx]
      by_cases hf : (x.schedule_type == ScheduleType.farm) = true
      · rw [if_pos hf, if_pos hf, ih']
      · rw [if_neg hf, if_neg hf, ih']

theorem isFarmDay_false_safe {it : Itinerary} {day : Nat}
    (h : isFarmDay it day = false) :
    ∀ x ∈ it.itinerary, ¬(x.day = day ∧ x.schedule_type = ScheduleType.farm) := by
  intro x hx ⟨hd, ht⟩
  have := List.any_eq_false.mp h x hx
  simp [hd, ht] at this

/-! ## Claim C4 -/

/-- C4: when feedback successfully targets a tour day, `revise_schedule`
replaces only that day's ScheduleItem(s): the item lists of every other day
and the entire set of farm items are structurally unchanged, and the
itinerary id and total day count are preserved (only content and summary are
recomputed). -/
theorem revise_frame_C4 (it : Itinerary) (feedback : String)
    (cands : List CandidateAttraction) (styles lands : List String)
    (day : Nat) (hp : parseDayRef feedback = some day) (it' : Itinerary)
    (h : revise_schedule it feedback cands styles lands = Except.ok it') :
    it'.itinerary_id = it.itinerary_id ∧
    it'.total_days = it.total_days ∧
    (∀ d', d' ≠ day →
      it'.itinerary.filter (fun x => x.day == d') =
        it.itinerary.filter (fun x => x.day == d')) ∧
    it'.itinerary.filter (fun x => x.schedule_type == ScheduleType.farm) =
      it.itinerary.filter (fun x => x.schedule_type == ScheduleType.farm) := by
  simp only [revise_schedule, hp] at h
  by_cases h1 : dayExists it day = false
  · rw [if_pos h1] at h
    exact Except.noConfusion h
  · rw [if_neg h1] at h
    by_cases h2 : isFarmDay it day = true
    · rw [if_pos h2] at h
      exact Except.noConfusion h
    · rw [if_neg h2, Except.ok.injEq] at h
      subst h
      refine ⟨rfl, rfl, fun d' hne => ?_, ?_⟩
      · exact reviseItems_filter_other hne _ it.itinerary
      · exact reviseItems_filter_farm _ it.itinerary
          (isFarmDay_false_safe (Bool.not_eq_true _ ▸ h2))

/-- Witness for C4: revising day 1 (a tour day) of the demo itinerary. -/
theorem revise_frame_C4_witness :
    ∃ it', revise_schedule demoItinerary "첫째날 일정을 바꿔주세요"
        [demoAttraction1] ["체험형"] ["산"] = Except.ok it' ∧
      (it'.itinerary_id = demoItinerary.itinerary_id ∧
       it'.total_days = demoItinerary.total_days ∧
       (∀ d', d' ≠ 1 →
         it'.itinerary.filter (fun x => x.day == d') =
           demoItinerary.itinerary.filter (fun x => x.day == d')) ∧
       it'.itinerary.filter (fun x => x.schedule_type == ScheduleType.farm) =
         demoItinerary.itinerary.filter
           (fun x => x.schedule_type == ScheduleType.farm)) :=
  ⟨_, rfl, revise_frame_C4 demoItinerary "첫째날 일정을 바꿔주세요"
    [demoAttraction1] ["체험형"] ["산"] 1 (by decide) _ rfl⟩

/-! ## Claim C5 -/

/-- C5: for feedback that resolves to a day reference, `revise_schedule`
fails — with `FeedbackTargetInvalidError`, the only failure value — exactly
when the referenced day does not exist in the itinerary or is a farm day;
the reviser is a pure function returning `Except`, so a failure produces no
itinerary at all and the prior itinerary value is left untouched. -/
theorem revise_error_iff_C5 (it : Itinerary) (feedback : String)
    (cands : List CandidateAttraction) (styles lands : List String)
    (day : Nat) (hp : parseDayRef feedback = some day) :
    (revise_schedule it feedback cands styles lands =
        Except.error ReviseError.FeedbackTargetInvalidError ↔
      (dayExists it day = false ∨ isFarmDay it day = true)) ∧
    ∀ e, revise_schedule it feedback cands styles lands = Except.error e →
      e = ReviseError.FeedbackTargetInvalidError := by
  refine ⟨?_, fun e _ => by cases e; rfl⟩
  simp only [revise_schedule, hp]
  by_cases h1 : dayExists it day = false
  · rw [if_pos h1]
    simp [h1]
  · rw [if_neg h1]
    by_cases h2 : isFarmDay it day = true
    · rw [if_pos h2]
      simp [h2]
    · rw [if_neg h2]
      simp [h1, h2]

/-- Witness for C5: feedback referencing the farm day of the demo itinerary
is rejected with `FeedbackTargetInvalidError`. -/
theorem revise_error_iff_C5_witness :
    revise_schedule demoItinerary "둘째날 일정을 바꿔주세요" [] [] [] =
      Except.error ReviseError.FeedbackTargetInvalidError :=
  ((revise_error_iff_C5 demoItinerary "둘째날 일정을 바꿔주세요" [] [] [] 2
    (by decide)).1).mpr (Or.inr (by decide))

/-! ## Lemmas: calendar materialization -/

theorem getDay_pushDay_self (cal : Calendar) (key : String × String)
    (e : CalEvent) :
    getDay (pushDay cal key e) key = getDay cal key ++ [e] := by
  induction cal with
  | nil => simp [pushDay, getDay]
  | cons kv rest ih =>
    rcases kv with ⟨k, evs⟩
    by_cases h : (k == key) = true
    · simp [pushDay, getDay, h]
    · simp only [pushDay, getDay, h]
      rw [if_neg (by simp [h]), if_neg (by simp [h])]
      exact ih

theorem getDay_pushDay_ne (cal : Calendar) {key key' : String × String}
    (e : CalEvent) (h : key' ≠ key) :
    getDay (pushDay cal key e) key' = getDay cal key' := by
  induction cal with
  | nil =>
    show (if (key == key') = true then [e] else getDay [] key') =
      getDay ([] : Calendar) key'
    rw [if_neg (by simp [Ne.symm h])]
  | cons kv rest ih =>
    rcases kv with ⟨k, evs⟩
    show getDay (if (k == key) = true then (k, evs ++ [e]) :: rest
        else (k, evs) :: pushDay rest key e) key' = _
    by_cases hk : (k == key) = true
    · rw [if_pos hk]
      have hkk : k = key := by simpa using hk
      show (if (k == key') = true then evs ++ [e] else getDay rest key') =
        (if (k == key') = true then evs else getDay rest key')
      rw [if_neg (by simp [hkk, Ne.symm h]), if_neg (by simp [hkk, Ne.symm h])]
    · rw [if_neg hk]
      show (if (k == key') = true then evs else getDay (pushDay rest key e) key') =
        (if (k == key') = true then evs else getDay rest key')
      rw [ih]

theorem calMemb_addCalendarItem_self {cal : Calendar} {item : JsItem}
    (h : item.date ≠ "" ∧ item.name ≠ "") :
    calMemb (addCalendarItem cal item) item := by
  unfold calMemb addCalendarItem
  rw [if_pos h]
  by_cases he : eventExists (getDay cal (calKey item.date)) item = true
  · rw [if_pos he]
    exact he
  · rw [if_neg he, getDay_pushDay_self]
    unfold eventExists at he ⊢
    rw [List.any_append]
    simp [eventOf]

theorem calMemb_addCalendarItem_mono {cal : Calendar} {i j : JsItem}
    (h : calMemb cal j) : calMemb (addCalendarItem cal i) j := by
  unfold calMemb at h ⊢
  unfold addCalendarItem
  by_cases hc : i.date ≠ "" ∧ i.name ≠ ""
  · rw [if_pos hc]
    by_cases he : eventExists (getDay cal (calKey i.date)) i = true
    · rw [if_pos he]
      exact h
    · rw [if_neg he]
      by_cases hkey : calKey j.date = calKey i.date
      · rw [hkey] at h
        rw [hkey, getDay_pushDay_self]
        unfold eventExists at h ⊢
        rw [List.any_append, h, Bool.true_or]
      · rw [getDay_pushDay_ne _ _ hkey]
        exact h
  · rw [if_neg hc]
    exact h

theorem addCalendarItem_of_calMemb {cal : Calendar} {item : JsItem}
    (h : item.date ≠ "" ∧ item.name ≠ "" → calMemb cal item) :
    addCalendarItem cal item = cal := by
  unfold addCalendarItem
  by_cases hc : item.date ≠ "" ∧ item.name ≠ ""
  · rw [if_pos hc]
    show (if eventExists (getDay cal (calKey item.date)) item = true then cal
        else pushDay cal (calKey item.date) (eventOf item)) = cal
    rw [if_pos (show eventExists (getDay cal (calKey item.date)) item = true
      from h hc)]
  · rw [if_neg hc]

theorem calMemb_updateHomeCalendar_mono {j : JsItem} :
    ∀ (items : List JsItem) (cal : Calendar), calMemb cal j →
      calMemb (updateHomeCalendar cal items) j := by
  intro items
  induction items with
  | nil => intro cal h; exact h
  | cons i is ih =>
    intro cal h
    exact ih (addCalendarItem cal i) (calMemb_addCalendarItem_mono h)

theorem calMemb_updateHomeCalendar {j : JsItem} :
    ∀ (items : List JsItem) (cal : Calendar), j ∈ items →
      j.date ≠ "" ∧ j.name ≠ "" → calMemb (updateHomeCalendar cal items) j := by
  intro items
  induction items with
  | nil => intro cal h; exact absurd h (List.not_mem_nil j)
  | cons i is ih =>
    intro cal hmem hkey
    rcases List.mem_cons.mp hmem with rfl | hmem
    · exact calMemb_updateHomeCalendar_mono is (addCalendarItem cal j)
        (calMemb_addCalendarItem_self hkey)
    · exact ih (addCalendarItem cal i) hmem hkey

theorem updateHomeCalendar_noop :
    ∀ (items : List JsItem) (cal : Calendar),
      (∀ j ∈ items, j.date ≠ "" ∧ j.name ≠ "" → calMemb cal j) →
      updateHomeCalendar cal items = cal := by
  intro items
  induction items with
  | nil => intro cal _; rfl
  | cons i is ih =>
    intro cal h
    have hstep : addCalendarItem cal i = cal :=
      addCalendarItem_of_calMemb (h i (List.mem_cons_self i is))
    show updateHomeCalendar (addCalendarItem cal i) is = cal
    rw [hstep]
    exact ih cal (fun j hj => h j (List.mem_cons_of_mem i hj))

/-! ## Claim C3 -/

/-- C3: calendar materialization is merge-idempotent — materializing the
same itinerary item list into the date-keyed calendar twice yields exactly
the calendar obtained from materializing it once, because
`updateHomeCalendar` never creates a duplicate `(activity, type)` entry
under the same day key. -/
theorem calendar_idempotent_C3 (cal : Calendar) (items : List JsItem) :
    updateHomeCalendar (updateHomeCalendar cal items) items =
      updateHomeCalendar cal items :=
  updateHomeCalendar_noop items (updateHomeCalendar cal items)
    (fun _ hj hkey => calMemb_updateHomeCalendar items cal hj hkey)

/-! ## Lemmas: grouped-schedule view -/

theorem flattenSt_groupStep (st : List SGroup × Option SGroup) (item : JsItem) :
    flattenSt (groupStep st item) = flattenSt st ++ [item] := by
  rcases st with ⟨gs, cur⟩
  by_cases hf : (item.schedule_type == "농가") = true
  · cases cur with
    | none =>
      simp [groupStep, flattenSt, hf]
    | some g =>
      by_cases hg : (g.gtype == "농가") = true
      · simp [groupStep, flattenSt, hf, hg, List.append_assoc]
      · simp [groupStep, flattenSt, hf, hg, List.flatten_append, List.append_assoc]
  · cases cur with
    | none =>
      simp [groupStep, flattenSt, hf]
    | some g =>
      by_cases hg : (g.gtype == "관광지" && g.startDay == item.day) = true
      · simp [groupStep, flattenSt, hf, hg, List.append_assoc]
      · simp [groupStep, flattenSt, hf, hg, List.flatten_append, List.append_assoc]

theorem flattenSt_foldl (l : List JsItem) :
    ∀ st, flattenSt (l.foldl groupStep st) = flattenSt st ++ l := by
  induction l with
  | nil => intro st; simp
  | cons x xs ih =>
    intro st
    show flattenSt (xs.foldl groupStep (groupStep st x)) = _
    rw [ih (groupStep st x), flattenSt_groupStep, List.append_assoc,
      List.singleton_append]

theorem groupedScheduleOf_partition (its : List JsItem) :
    ((groupedScheduleOf its).map (fun g => g.items)).flatten = its := by
  unfold groupedScheduleOf
  have h := flattenSt_foldl its ([], none)
  rcases hst : its.foldl groupStep ([], none) with ⟨gs, cur⟩
  rw [hst] at h
  cases cur with
  | none => simpa [flattenSt] using h
  | some g =>
    simp only [flattenSt, List.nil_append] at h
    simpa [List.map_append, List.flatten_append] using h

/-! ## Claim C10 -/

/-- C10: the grouped-schedule view is a partition of the flat itinerary —
concatenating the groups' item lists in group order gives back exactly the
input sequence — and one grouping step merges a farm item into a current
farm group (extending its `endDay`, never opening a second group), while a
tour item joins the current group exactly when that group is a tour group
with the same day index. -/
theorem grouped_schedule_partition_C10 :
    (∀ its : List JsItem,
      ((groupedScheduleOf its).map (fun g => g.items)).flatten = its)
    ∧ (∀ (gs : List SGroup) (g : SGroup) (item : JsItem),
        item.schedule_type = "농가" → g.gtype = "농가" →
        groupStep (gs, some g) item =
          (gs, some { g with endDay := item.day, items := g.items ++ [item] }))
    ∧ (∀ (gs : List SGroup) (g : SGroup) (item : JsItem),
        item.schedule_type ≠ "농가" →
        (groupStep (gs, some g) item =
            (gs, some { g with items := g.items ++ [item] }) ↔
          (g.gtype = "관광지" ∧ g.startDay = item.day))) := by
  refine ⟨groupedScheduleOf_partition, ?_, ?_⟩
  · intro gs g item hitem hg
    simp [groupStep, hitem, hg]
  · intro gs g item hitem
    have hf : (item.schedule_type == "농가") = false := by
      simp [hitem]
    by_cases hc : (g.gtype == "관광지" && g.startDay == item.day) = true
    · have hcp : g.gtype = "관광지" ∧ g.startDay = item.day := by
        rcases Bool.and_eq_true_iff.mp hc with ⟨h1, h2⟩
        exact ⟨by simpa using h1, by simpa using h2⟩
      simp only [groupStep, hf]
      rw [if_neg (by simp), if_pos hc]
      simp [hcp]
    · have hcp : ¬(g.gtype = "관광지" ∧ g.startDay = item.day) := by
        intro ⟨h1, h2⟩
        exact hc (by simp [h1, h2])
      simp only [groupStep, hf]
      rw [if_neg (by simp), if_neg hc]
      constructor
      · intro heq
        have h1 : gs ++ [g] = gs := congrArg Prod.fst heq
        have h2 := congrArg List.length h1
        simp at h2
      · intro hcond
        exact absurd hcond hcp

/-- Witness for C10 at concrete groups and items. -/
theorem grouped_schedule_partition_C10_witness :
    ((groupedScheduleOf [demoJsTour, demoJsFarm, demoJsFarm2]).map
        (fun g => g.items)).flatten = [demoJsTour, demoJsFarm, demoJsFarm2]
    ∧ groupStep ([], some ⟨"농가", 2, 2, [demoJsFarm]⟩) demoJsFarm2 =
        ([], some { (⟨"농가", 2, 2, [demoJsFarm]⟩ : SGroup) with
          endDay := demoJsFarm2.day,
          items := [demoJsFarm] ++ [demoJsFarm2] }) :=
  ⟨grouped_schedule_partition_C10.1 [demoJsTour, demoJsFarm, demoJsFarm2],
   grouped_schedule_partition_C10.2.1 [] ⟨"농가", 2, 2, [demoJsFarm]⟩
     demoJsFarm2 rfl rfl⟩

end KdtEngine
